import Mathlib

/-!
# Verification of DiscordBotTools

A shallow embedding, in Lean 4, of the three scripts of the
`NanashiTheNameless/DiscordBotTools` repository:

* `Delete_Bot_DMs_With_User.py` — purge the bot's own messages in the DM
  channel with one user;
* `List_Guild_Invites.py` — list the invites of a guild and optionally
  create one;
* `List_Guilds.py` — list the guilds the bot is in.

All three scripts share one orchestration pattern: a `discord.Client` is
started, an `on_ready` handler performs the work and resolves a
single-assignment future `done`, and the surrounding `main` awaits that
future, closes the client and maps the outcome to an exit code.  The
embedding models that pattern, the purge loop, and the invite
enumeration/creation logic as total Lean functions over explicit
environments describing the remote platform's responses, and proves the
specification's claims about them.
-/

/- ## Session lifecycle orchestrator

Embeds the tail of `main()` shared by the scripts
(`Delete_Bot_DMs_With_User.py` lines 127–149, `List_Guild_Invites.py`
lines 181–198, `List_Guilds.py` lines 79–93):

```python
    async def run():
        try:
            await client.start(token)
        except discord.LoginFailure:
            print("Error: Invalid bot token.", file=sys.stderr)
            return 3
        return 0

    task = asyncio.create_task(run())
    await asyncio.wait({done}, return_when=asyncio.ALL_COMPLETED)
    await client.close()
    try:
        await task
    except Exception:
        pass

    if not done.result():
        return 1
    ...
    return 0
```

The environment is summarised by two inputs: whether `client.start(token)`
authenticates (`authOk`), and, when it does, how the `on_ready` handler
resolves the future `done`.
-/

/-- How the `on_ready` handler resolves the completion future `done`:
`done.set_result(True)`, `done.set_result(False)`, or
`done.set_exception(exc)` from the catch-all `except` clause. -/
inductive HandlerOutcome where
  | success
  | failure
  | raised
deriving DecidableEq, Repr

/-- How the process-level `main()` coroutine terminates: it returns an
exit code, it propagates an exception (for `asyncio.run` to re-raise), or
it never terminates at all. -/
inductive MainResult where
  | exits (code : Nat)
  | raises
  | hangs
deriving DecidableEq, Repr

/-- Observable trace of one run of `main()`: how it terminated, how many
times a Session was opened (`client.start` reached) and how many times
`client.close()` was awaited. -/
structure RunTrace where
  result : MainResult
  opens : Nat
  closes : Nat
deriving DecidableEq, Repr

/-- The inner coroutine `run()`: `client.start(token)` either
authenticates (return `0` after the connection eventually ends) or raises
`discord.LoginFailure`, which is caught and mapped to the return value
`3`.  Note that `main` never reads this return value. -/
def run (authOk : Bool) : Nat :=
  if authOk then 0 else 3

/-- The teardown sequence of `main()` once `await asyncio.wait({done})`
has returned: `await client.close()` (one close), `await task` with its
result — `run`'s `0` or `3` — discarded and its exceptions swallowed,
then `done.result()` is inspected: an exception stored in `done`
re-raises here, `False` yields `return 1`, `True` yields `return 0`. -/
def teardownAndExit (outcome : HandlerOutcome) (taskReturn : Nat) : RunTrace :=
  let _ := taskReturn
  match outcome with
  | .raised => { result := .raises, opens := 1, closes := 1 }
  | .failure => { result := .exits 1, opens := 1, closes := 1 }
  | .success => { result := .exits 0, opens := 1, closes := 1 }

/-- The orchestration tail of `main()`.  `await asyncio.wait({done})`
completes only when the future `done` is resolved, and `done` is resolved
only by the `on_ready` handler, which fires only after a successful
login: when authentication is rejected, `run()` returns `3` into the
never-awaited task while `main` blocks forever on the unresolved future,
reaching neither `client.close()` nor any `return`. -/
def orchestrate (authOk : Bool) (outcome : HandlerOutcome) : RunTrace :=
  if authOk then
    teardownAndExit outcome (run authOk)
  else
    { result := .hangs, opens := 1, closes := 0 }

/- ## Token acquisition

Embeds the prelude of `main()` (`Delete_Bot_DMs_With_User.py` lines
35–44, `List_Guilds.py` lines 41–50, `List_Guild_Invites.py` lines
97–106):

```python
    token = args.token
    if not token:
        try:
            token = getpass.getpass("Bot token: ")
        except (EOFError, KeyboardInterrupt):
            print("Error: No bot token provided.", file=sys.stderr)
            return 2
    if not token:
        print("Error: No bot token provided.", file=sys.stderr)
        return 2
```

`discord.Client` is constructed, and `client.start(token)` reached, only
after this prelude succeeds, so `.error 2` means `main` returns with no
Session ever opened and no authentication attempted. -/

/-- Result of the interactive `getpass.getpass("Bot token: ")` call: a
string was entered, or the prompt was aborted (`EOFError` /
`KeyboardInterrupt`). -/
inductive PromptOutcome where
  | entered (s : String)
  | interrupted
deriving DecidableEq, Repr

/-- The token-acquisition prelude: `args.token` (absent flag modelled as
`none`, a falsy `None` in Python, like the empty string); if falsy, the
secret prompt is consulted; a prompt abort or a still-empty token yields
exit code `2`. -/
def acquireToken (flagToken : Option String) (prompt : PromptOutcome) :
    Except Nat String :=
  let token := flagToken.getD ""
  if token = "" then
    match prompt with
    | .interrupted => .error 2
    | .entered s => if s = "" then .error 2 else .ok s
  else
    .ok token

/-- `main()` end to end, at the level of the claims: the token prelude
either returns exit code `2` before any `discord.Client` exists (zero
opens, zero closes), or a non-empty token flows into the orchestration
tail. -/
def main_model (flagToken : Option String) (prompt : PromptOutcome)
    (authOk : Bool) (outcome : HandlerOutcome) : RunTrace :=
  match acquireToken flagToken prompt with
  | .error c => { result := .exits c, opens := 0, closes := 0 }
  | .ok _ => orchestrate authOk outcome

/- ## DM purge loop

Embeds the `on_ready` handler of `Delete_Bot_DMs_With_User.py`
(lines 70–125).  The remote platform's behaviour is an explicit
environment: the outcome of `client.fetch_user`, of `user.create_dm`,
the message history stream (a list, oldest first), and the outcome of
each `message.delete()` call. -/

/-- One `discord.Message` of the history stream: its author's ID and its
own ID. -/
structure Message where
  authorId : Nat
  msgId : Nat
deriving DecidableEq, Repr

/-- Outcome of one `await message.delete()` call: success, `Forbidden`,
or another `HTTPException`. -/
inductive DeleteOutcome where
  | ok
  | forbidden
  | httpError
deriving DecidableEq, Repr

/-- Outcome of `await client.fetch_user(user_id)`. -/
inductive FetchUserOutcome where
  | ok
  | notFound
  | httpError
deriving DecidableEq, Repr

/-- Outcome of `await user.create_dm()`: a channel (with the
`isinstance(dm_channel, discord.DMChannel)` test's verdict) or an
`HTTPException`. -/
inductive CreateDmOutcome where
  | ok (isDmChannel : Bool)
  | httpError
deriving DecidableEq, Repr

/-- The mutable state of the purge loop: the two counters of
`stats = {"deleted": 0, "failed": 0}`, plus two observables of the run —
the list of messages on which `message.delete()` was actually called, in
call order, and the number of per-message diagnostics printed to
`stderr`. -/
structure PurgeState where
  deleted : Nat
  failed : Nat
  attempts : List Message
  diags : Nat
deriving DecidableEq, Repr

/-- The state at the top of the `async for` loop. -/
def initPurgeState : PurgeState :=
  { deleted := 0, failed := 0, attempts := [], diags := 0 }

/-- One iteration of the purge loop body (lines 101–121): a message not
authored by the acting client (`message.author.id != client.user.id`) is
skipped with no attempt; otherwise `message.delete()` is attempted, and
its outcome either increments `deleted` or increments `failed` together
with a diagnostic — both error arms fall through to the next
iteration. -/
def purgeStep (selfId : Nat) (del : Message → DeleteOutcome)
    (s : PurgeState) (m : Message) : PurgeState :=
  if m.authorId ≠ selfId then
    s
  else
    let s := { s with attempts := s.attempts ++ [m] }
    match del m with
    | .ok => { s with deleted := s.deleted + 1 }
    | .forbidden => { s with failed := s.failed + 1, diags := s.diags + 1 }
    | .httpError => { s with failed := s.failed + 1, diags := s.diags + 1 }

/-- The whole `async for message in dm_channel.history(...)` loop, a left
fold of the loop body over the (oldest-first) stream. -/
def purgeHistory (selfId : Nat) (del : Message → DeleteOutcome)
    (msgs : List Message) : PurgeState :=
  msgs.foldl (purgeStep selfId del) initPurgeState

/-- Result of the `on_ready` handler: the value placed in the completion
future (`True` on success, `False` on every early-return failure path)
and the final loop state. -/
structure PurgeRun where
  done : Bool
  stats : PurgeState
deriving DecidableEq, Repr

/-- The `on_ready` handler of `Delete_Bot_DMs_With_User.py`: resolve the
target user (`NotFound` or HTTP error → `done.set_result(False)`), open
the DM channel (HTTP error → `False`), verify the channel type
(unexpected type → `False`), then run the purge loop and finish with
`done.set_result(True)`. -/
def on_ready_purge (selfId : Nat) (fetchUser : FetchUserOutcome)
    (createDm : CreateDmOutcome) (del : Message → DeleteOutcome)
    (history : List Message) : PurgeRun :=
  match fetchUser with
  | .notFound => { done := false, stats := initPurgeState }
  | .httpError => { done := false, stats := initPurgeState }
  | .ok =>
    match createDm with
    | .httpError => { done := false, stats := initPurgeState }
    | .ok isDmChannel =>
      if !isDmChannel then
        { done := false, stats := initPurgeState }
      else
        { done := true, stats := purgeHistory selfId del history }

/-- The messages of a stream that the purge loop attempts to delete: the
ones authored by the acting client. -/
def attemptsOf (selfId : Nat) (msgs : List Message) : List Message :=
  msgs.filter (fun m => m.authorId == selfId)

/-- The number of deletion attempts of a stream that succeed. -/
def countDeleted (selfId : Nat) (del : Message → DeleteOutcome) :
    List Message → Nat
  | [] => 0
  | m :: rest =>
    (if m.authorId = selfId ∧ del m = DeleteOutcome.ok then 1 else 0)
      + countDeleted selfId del rest

/-- The number of deletion attempts of a stream that fail
(`Forbidden` or `HTTPException`). -/
def countFailed (selfId : Nat) (del : Message → DeleteOutcome) :
    List Message → Nat
  | [] => 0
  | m :: rest =>
    (if m.authorId = selfId ∧ del m ≠ DeleteOutcome.ok then 1 else 0)
      + countFailed selfId del rest

/- ## Character-list ordering

Python compares strings (and tuples of strings) lexicographically by
code point; `list.sort` is a stable sort.  The embedding represents a
string's code points through `String.data` and compares them with an
explicit lexicographic three-way comparison, and models the stable sort
with insertion sort (also stable, hence producing the same list). -/

/-- Three-way lexicographic comparison of two lists of characters by
code point — Python's `<`/`==`/`>` on strings. -/
def charsCmp : List Char → List Char → Ordering
  | [], [] => .eq
  | [], _ :: _ => .lt
  | _ :: _, [] => .gt
  | a :: as, b :: bs =>
    if a.toNat < b.toNat then .lt
    else if b.toNat < a.toNat then .gt
    else charsCmp as bs

/-- Python's `<=` on strings, by code point. -/
def charsLe (a b : List Char) : Bool :=
  charsCmp a b ≠ Ordering.gt

/- ## Guild channels and invite-channel selection

Embeds `choose_channel_for_invite` of `List_Guild_Invites.py`
(lines 66–80):

```python
async def choose_channel_for_invite(guild, preferred_id):
    if preferred_id:
        try:
            ch = guild.get_channel(preferred_id) or await guild.fetch_channel(preferred_id)
            return ch
        except (NotFound, Forbidden, HTTPException):
            return None
    if guild.system_channel:
        return guild.system_channel
    for ch in sorted(guild.text_channels, key=lambda c: (c.position, c.id)):
        return ch
    for ch in guild.channels:
        if hasattr(ch, "create_invite"):
            return ch
    return None
```
-/

/-- A guild channel: its snowflake ID, name, UI position, whether it is
a text channel (membership in `guild.text_channels`), and whether it has
a `create_invite` attribute. -/
structure Channel where
  id : Nat
  name : String
  position : Nat
  isText : Bool
  hasCreateInvite : Bool
deriving DecidableEq, Repr

/-- A guild as `choose_channel_for_invite` sees it: `guild.channels` in
cache order, `guild.system_channel`, and the behaviour of
`await guild.fetch_channel(id)` — `none` models a raised `NotFound`,
`Forbidden` or `HTTPException`. -/
structure Guild where
  channels : List Channel
  system_channel : Option Channel
  fetchChannel : Nat → Option Channel

/-- `guild.text_channels`: the text channels of the guild. -/
def text_channels (g : Guild) : List Channel :=
  g.channels.filter (fun c => c.isText)

/-- The sort key `(c.position, c.id)` of the third fallback step, as a
Boolean ordering. -/
def chanLe (a b : Channel) : Bool :=
  a.position < b.position || (a.position == b.position && a.id ≤ b.id)

/-- `chanLe` as a decidable relation, for the model of `sorted`. -/
def chanLeProp (a b : Channel) : Prop :=
  chanLe a b = true

instance : DecidableRel chanLeProp :=
  fun a b => instDecidableEqBool (chanLe a b) true

/-- The fallback chain of `choose_channel_for_invite` once no usable
explicit channel ID is in play: the system channel if set, else the
first of the text channels sorted by `(position, id)`, else the first
guild channel with a `create_invite` attribute, else `None`. -/
def chooseFallback (g : Guild) : Option Channel :=
  match g.system_channel with
  | some ch => some ch
  | none =>
    match List.insertionSort chanLeProp (text_channels g) with
    | ch :: _ => some ch
    | [] => g.channels.find? (fun c => c.hasCreateInvite)

/-- `choose_channel_for_invite`.  A truthy `preferred_id` (present and
non-zero) short-circuits: the channel is looked up in the cache, then
fetched; a fetch failure returns `None` without falling back.  A falsy
`preferred_id` (absent, or `0`) proceeds to the fallback chain. -/
def choose_channel_for_invite (guild : Guild) (preferred_id : Option Nat) :
    Option Channel :=
  match preferred_id with
  | some cid =>
    if cid ≠ 0 then
      match guild.channels.find? (fun c => c.id == cid) with
      | some ch => some ch
      | none => guild.fetchChannel cid
    else
      chooseFallback guild
  | none => chooseFallback guild

/- ## Invite records

Embeds `invite_record` of `List_Guild_Invites.py` (lines 42–64).  The
`getattr(..., None)` probes of the source become `Option` fields of the
modelled `discord.Invite`; datetimes become natural-number timestamps,
with `timedelta(seconds=n)` addition becoming `+ n`. -/

/-- A `discord.Invite` as `invite_record` consumes it.  `max_age` is
`none` when the attribute is `None`; `createdAt` is `none` when
`inv.created_at` is `None`. -/
structure Invite where
  code : String
  url : String
  channelId : Option Nat
  channelName : Option String
  inviterId : Option Nat
  inviterName : Option String
  uses : Nat
  maxUses : Nat
  temporary : Bool
  revoked : Bool
  max_age : Option Nat
  createdAt : Option Nat
deriving DecidableEq, Repr

/-- The dictionary built by `invite_record`. -/
structure InviteRec where
  code : String
  url : String
  channel_id : Option Nat
  channel_name : Option String
  inviter_id : Option Nat
  inviter_name : Option String
  uses : Nat
  max_uses : Nat
  temporary : Bool
  revoked : Bool
  max_age_seconds : Option Nat
  created_at : Option Nat
  expires_at : Option Nat
deriving DecidableEq, Repr

/-- `invite_record`: pass the invite's attributes through, deriving
`expires_at` by `if inv.max_age and inv.max_age > 0 and inv.created_at:
expires_at = inv.created_at + timedelta(seconds=inv.max_age)` — a truthy
(present, non-zero) positive `max_age` and a present `created_at`. -/
def invite_record (inv : Invite) : InviteRec :=
  let expires_at :=
    match inv.max_age, inv.createdAt with
    | some n, some t => if 0 < n then some (t + n) else none
    | _, _ => none
  { code := inv.code
    url := inv.url
    channel_id := inv.channelId
    channel_name := inv.channelName
    inviter_id := inv.inviterId
    inviter_name := inv.inviterName
    uses := inv.uses
    max_uses := inv.maxUses
    temporary := inv.temporary
    revoked := inv.revoked
    max_age_seconds := inv.max_age
    created_at := inv.createdAt
    expires_at := expires_at }

/-- Python's `<=` on a pair of strings (as code-point lists):
lexicographic — strictly smaller first component, or equal first
components and `<=` on the second. -/
def pairLe (a b : List Char × List Char) : Bool :=
  match charsCmp a.1 b.1 with
  | .lt => true
  | .gt => false
  | .eq => charsLe a.2 b.2

/-- The sort key of `results["invites"].sort(key=lambda r:
(r.get("channel_name") or "", r.get("code") or ""))`: the channel name
(missing read as the empty string) paired with the code. -/
def recKey (r : InviteRec) : List Char × List Char :=
  ((r.channel_name.getD "").data, r.code.data)

/-- The final presentation ordering of the invite records: Python's
tuple comparison on their sort keys. -/
def recLe (a b : InviteRec) : Bool :=
  pairLe (recKey a) (recKey b)

/-- `recLe` as a decidable relation, for the model of `list.sort`. -/
def recLeProp (a b : InviteRec) : Prop :=
  recLe a b = true

instance : DecidableRel recLeProp :=
  fun a b => instDecidableEqBool (recLe a b) true

/-- The in-place `results["invites"].sort(...)`, modelled by a stable
sort with respect to the same key. -/
def sortInvites (l : List InviteRec) : List InviteRec :=
  List.insertionSort recLeProp l

/- ## Invite enumeration and creation

Embeds the `on_ready` handler of `List_Guild_Invites.py`
(lines 122–179).  The remote platform's behaviour is an explicit
environment: the result of guild resolution (`client.get_guild`, else
`await client.fetch_guild`), the outcome of `await guild.invites()`, and
the outcome of `await channel.create_invite(...)` should it be called. -/

/-- The flags of the invite script that the handler reads. -/
structure InviteArgs where
  create : Bool
  only_if_none : Bool
  include_revoked : Bool
  channel_id : Option Nat
deriving DecidableEq, Repr

/-- Outcome of `await guild.invites()`: a list of invites, `Forbidden`,
or another `HTTPException`. -/
inductive FetchInvitesOutcome where
  | ok (invs : List Invite)
  | forbidden
  | httpError
deriving DecidableEq, Repr

/-- Outcome of `await channel.create_invite(...)`: the new invite,
`Forbidden`, or another `HTTPException`. -/
inductive CreateInviteOutcome where
  | ok (inv : Invite)
  | forbidden
  | httpError
deriving DecidableEq, Repr

/-- Result of the invite handler: the value placed in the completion
future, the sorted `results["invites"]`, `results["created_invite"]`,
whether `channel.create_invite` was actually awaited, and the number of
diagnostics printed to `stderr`. -/
structure InviteRunResult where
  done : Bool
  invites : List InviteRec
  created_invite : Option InviteRec
  createCalled : Bool
  diags : Nat
deriving DecidableEq, Repr

/-- The invite list as the fetch leaves it (lines 137–144): the fetched
list on success; `Forbidden` is caught and leaves the pre-initialised
empty list, as does any other `HTTPException` (which also prints a
diagnostic). -/
def fetchedInvites : FetchInvitesOutcome → List Invite
  | .ok invs => invs
  | .forbidden => []
  | .httpError => []

/-- One iteration of the record-collection loop of lines 167–171:
build the invite's record and skip it (`continue`) when it is revoked
and `--include-revoked` is not set, otherwise append it. -/
def collectStep (include_revoked : Bool) (acc : List InviteRec)
    (inv : Invite) : List InviteRec :=
  let r := invite_record inv
  if !include_revoked && r.revoked then acc else acc ++ [r]

/-- The record-collection loop of lines 167–171, a left fold of its body
over the invite list, starting from the empty `results["invites"]`. -/
def collectRecords (include_revoked : Bool) (invs : List Invite) :
    List InviteRec :=
  invs.foldl (collectStep include_revoked) []

/-- The creation block of lines 145–165, given that the guild resolved:
`should_create = args.create and (not args.only_if_none or
len(invites) == 0)`; when it holds, a channel is resolved (failure: only
a diagnostic), `create_invite` is awaited on it, a success is recorded
and appended to the in-memory invite list, and `Forbidden` or another
`HTTPException` produce only a diagnostic. -/
structure CreateStepResult where
  created_rec : Option InviteRec
  invites : List Invite
  called : Bool
  diags : Nat
deriving DecidableEq, Repr

/-- The creation block itself: the created record (`created_rec`), the
invite list after creation, whether `channel.create_invite` was awaited
(`called`), and the diagnostics this block emitted. -/
def createStep (args : InviteArgs) (guild : Guild)
    (invites : List Invite) (createRes : CreateInviteOutcome) :
    CreateStepResult :=
  let should_create := args.create && (!args.only_if_none || invites.length == 0)
  if should_create then
    match choose_channel_for_invite guild args.channel_id with
    | none => { created_rec := none, invites := invites, called := false, diags := 1 }
    | some _ch =>
      match createRes with
      | .ok new_inv =>
        { created_rec := some (invite_record new_inv)
          invites := invites ++ [new_inv], called := true, diags := 0 }
      | .forbidden =>
        { created_rec := none, invites := invites, called := true, diags := 1 }
      | .httpError =>
        { created_rec := none, invites := invites, called := true, diags := 1 }
  else
    { created_rec := none, invites := invites, called := false, diags := 0 }

/-- The `on_ready` handler of `List_Guild_Invites.py` from the point
where the guild has resolved (lines 137–177): fetch the invites,
conditionally create one, collect and filter the records, store the
created record if any, sort in place, and resolve the future with
`True` — this tail has no `done.set_result(False)` path. -/
def on_ready_invites (args : InviteArgs) (guild : Guild)
    (fetchRes : FetchInvitesOutcome) (createRes : CreateInviteOutcome) :
    InviteRunResult :=
  let invites := fetchedInvites fetchRes
  let fetchDiags : Nat := match fetchRes with | .httpError => 1 | _ => 0
  let step := createStep args guild invites createRes
  { done := true
    invites := sortInvites (collectRecords args.include_revoked step.invites)
    created_invite := step.created_rec
    createCalled := step.called
    diags := fetchDiags + step.diags }

/-- The guild-resolution head of the handler (lines 125–135):
`client.get_guild` from the cache, else `await client.fetch_guild` with
`HTTPException` caught into `None`; `None` resolves the future with
`False` before any invite is touched. -/
def on_ready_invites_full (args : InviteArgs) (resolvedGuild : Option Guild)
    (fetchRes : FetchInvitesOutcome) (createRes : CreateInviteOutcome) :
    InviteRunResult :=
  match resolvedGuild with
  | none =>
    { done := false, invites := [], created_invite := none
      createCalled := false, diags := 1 }
  | some guild => on_ready_invites args guild fetchRes createRes

/- ## Helper lemmas about the purge loop -/

/-- Unfolding `attemptsOf` over a cons. -/
theorem attemptsOf_cons (selfId : Nat) (m : Message) (rest : List Message) :
    attemptsOf selfId (m :: rest) =
      if m.authorId = selfId then m :: attemptsOf selfId rest
      else attemptsOf selfId rest := by
  simp only [attemptsOf, List.filter_cons]
  by_cases h : m.authorId = selfId
  · simp [h]
  · simp [h]

/-- Closed form of the purge loop fold, over an arbitrary starting
state. -/
theorem purge_foldl_eq (selfId : Nat) (del : Message → DeleteOutcome) :
    ∀ (msgs : List Message) (s : PurgeState),
      msgs.foldl (purgeStep selfId del) s =
        { deleted := s.deleted + countDeleted selfId del msgs
          failed := s.failed + countFailed selfId del msgs
          attempts := s.attempts ++ attemptsOf selfId msgs
          diags := s.diags + countFailed selfId del msgs } := by
  intro msgs
  induction msgs with
  | nil =>
    intro s
    simp [countDeleted, countFailed, attemptsOf]
  | cons m rest ih =>
    intro s
    rw [List.foldl_cons, ih]
    by_cases hm : m.authorId = selfId
    · cases hdel : del m with
      | ok =>
        simp only [purgeStep, hm, ne_eq, not_true_eq_false, if_false, hdel,
          countDeleted, countFailed, attemptsOf_cons, PurgeState.mk.injEq]
        refine ⟨by simp [hm, hdel]; omega, by simp [hm, hdel], ?_, by simp [hm, hdel]⟩
        simp [hm]
      | forbidden =>
        simp only [purgeStep, hm, ne_eq, not_true_eq_false, if_false, hdel,
          countDeleted, countFailed, attemptsOf_cons, PurgeState.mk.injEq]
        refine ⟨by simp [hm, hdel], by simp [hm, hdel]; omega, ?_, by simp [hm, hdel]; omega⟩
        simp [hm]
      | httpError =>
        simp only [purgeStep, hm, ne_eq, not_true_eq_false, if_false, hdel,
          countDeleted, countFailed, attemptsOf_cons, PurgeState.mk.injEq]
        refine ⟨by simp [hm, hdel], by simp [hm, hdel]; omega, ?_, by simp [hm, hdel]; omega⟩
        simp [hm]
    · simp only [purgeStep, hm, ne_eq, not_false_eq_true, if_true,
        countDeleted, countFailed, attemptsOf_cons, PurgeState.mk.injEq]
      exact ⟨by simp [hm], by simp [hm], by simp [hm], by simp [hm]⟩

/-- The purge loop from the initial state, in closed form. -/
theorem purgeHistory_eq (selfId : Nat) (del : Message → DeleteOutcome)
    (msgs : List Message) :
    purgeHistory selfId del msgs =
      { deleted := countDeleted selfId del msgs
        failed := countFailed selfId del msgs
        attempts := attemptsOf selfId msgs
        diags := countFailed selfId del msgs } := by
  rw [purgeHistory, purge_foldl_eq]
  simp [initPurgeState]

/-- `countDeleted` distributes over append. -/
theorem countDeleted_append (selfId : Nat) (del : Message → DeleteOutcome)
    (l₁ l₂ : List Message) :
    countDeleted selfId del (l₁ ++ l₂)
      = countDeleted selfId del l₁ + countDeleted selfId del l₂ := by
  induction l₁ with
  | nil => simp [countDeleted]
  | cons m rest ih =>
    show (if m.authorId = selfId ∧ del m = DeleteOutcome.ok then 1 else 0)
          + countDeleted selfId del (rest ++ l₂)
        = (if m.authorId = selfId ∧ del m = DeleteOutcome.ok then 1 else 0)
          + countDeleted selfId del rest + countDeleted selfId del l₂
    rw [ih, Nat.add_assoc]

/-- `countFailed` distributes over append. -/
theorem countFailed_append (selfId : Nat) (del : Message → DeleteOutcome)
    (l₁ l₂ : List Message) :
    countFailed selfId del (l₁ ++ l₂)
      = countFailed selfId del l₁ + countFailed selfId del l₂ := by
  induction l₁ with
  | nil => simp [countFailed]
  | cons m rest ih =>
    show (if m.authorId = selfId ∧ del m ≠ DeleteOutcome.ok then 1 else 0)
          + countFailed selfId del (rest ++ l₂)
        = (if m.authorId = selfId ∧ del m ≠ DeleteOutcome.ok then 1 else 0)
          + countFailed selfId del rest + countFailed selfId del l₂
    rw [ih, Nat.add_assoc]

/-- `attemptsOf` distributes over append. -/
theorem attemptsOf_append (selfId : Nat) (l₁ l₂ : List Message) :
    attemptsOf selfId (l₁ ++ l₂) = attemptsOf selfId l₁ ++ attemptsOf selfId l₂ := by
  simp [attemptsOf, List.filter_append]

/-- Every attempted stream splits between succeeded and failed
attempts. -/
theorem count_split (selfId : Nat) (del : Message → DeleteOutcome)
    (msgs : List Message) :
    countDeleted selfId del msgs + countFailed selfId del msgs
      = (attemptsOf selfId msgs).length := by
  induction msgs with
  | nil => simp [countDeleted, countFailed, attemptsOf]
  | cons m rest ih =>
    rw [countDeleted, countFailed, attemptsOf_cons]
    by_cases hm : m.authorId = selfId
    · cases hdel : del m <;> simp [hm, hdel] <;> omega
    · simp [hm, ih]

/-- When every attempted deletion succeeds, no attempt fails. -/
theorem countFailed_eq_zero (selfId : Nat) (del : Message → DeleteOutcome)
    (msgs : List Message)
    (h : ∀ m ∈ msgs, m.authorId = selfId → del m = DeleteOutcome.ok) :
    countFailed selfId del msgs = 0 := by
  induction msgs with
  | nil => simp [countFailed]
  | cons m rest ih =>
    rw [countFailed]
    have hrest : countFailed selfId del rest = 0 :=
      ih (fun x hx => h x (List.mem_cons_of_mem m hx))
    by_cases hm : m.authorId = selfId
    · have := h m (List.mem_cons_self m rest) hm
      simp [hm, this, hrest]
    · simp [hm, hrest]

/-- C3: during the purge loop, every message whose deletion raises
`Forbidden` or another HTTP error increments `failed` by exactly one and
emits exactly one diagnostic, iteration continues with the remaining
messages of the stream (which are still attempted when authored), and
after the stream is exhausted the handler still resolves the completion
future with Success. -/
theorem purge_error_containment (selfId : Nat) (del : Message → DeleteOutcome)
    (pre post : List Message) (m : Message)
    (hAuth : m.authorId = selfId) (hBad : del m ≠ DeleteOutcome.ok) :
    (purgeHistory selfId del (pre ++ [m])).failed
        = (purgeHistory selfId del pre).failed + 1 ∧
    (purgeHistory selfId del (pre ++ [m])).diags
        = (purgeHistory selfId del pre).diags + 1 ∧
    (purgeHistory selfId del (pre ++ m :: post)).attempts
        = (purgeHistory selfId del pre).attempts ++ m :: attemptsOf selfId post ∧
    (on_ready_purge selfId .ok (.ok true) del (pre ++ m :: post)).done = true := by
  have hsingle : countFailed selfId del [m] = 1 := by
    simp [countFailed, hAuth, hBad]
  refine ⟨?_, ?_, ?_, ?_⟩
  · rw [purgeHistory_eq, purgeHistory_eq]
    simp [countFailed_append, hsingle]
  · rw [purgeHistory_eq, purgeHistory_eq]
    simp [countFailed_append, hsingle]
  · rw [purgeHistory_eq, purgeHistory_eq]
    show attemptsOf selfId (pre ++ m :: post)
        = attemptsOf selfId pre ++ m :: attemptsOf selfId post
    rw [attemptsOf_append, attemptsOf_cons, if_pos hAuth]
  · simp [on_ready_purge]

/-- Concrete instance of `purge_error_containment`: acting client `1`,
every deletion `Forbidden`, stream of three own messages. -/
theorem purge_error_containment_witness :
    (⟨1, 11⟩ : Message).authorId = 1 ∧
    (fun _ : Message => DeleteOutcome.forbidden) ⟨1, 11⟩ ≠ DeleteOutcome.ok ∧
    ((purgeHistory 1 (fun _ => DeleteOutcome.forbidden) ([⟨1, 10⟩] ++ [⟨1, 11⟩])).failed
        = (purgeHistory 1 (fun _ => DeleteOutcome.forbidden) [⟨1, 10⟩]).failed + 1 ∧
     (purgeHistory 1 (fun _ => DeleteOutcome.forbidden) ([⟨1, 10⟩] ++ [⟨1, 11⟩])).diags
        = (purgeHistory 1 (fun _ => DeleteOutcome.forbidden) [⟨1, 10⟩]).diags + 1 ∧
     (purgeHistory 1 (fun _ => DeleteOutcome.forbidden) ([⟨1, 10⟩] ++ ⟨1, 11⟩ :: [⟨1, 12⟩])).attempts
        = (purgeHistory 1 (fun _ => DeleteOutcome.forbidden) [⟨1, 10⟩]).attempts
            ++ ⟨1, 11⟩ :: attemptsOf 1 [⟨1, 12⟩] ∧
     (on_ready_purge 1 .ok (.ok true) (fun _ => DeleteOutcome.forbidden)
        ([⟨1, 10⟩] ++ ⟨1, 11⟩ :: [⟨1, 12⟩])).done = true) :=
  ⟨by decide, by decide,
    purge_error_containment 1 (fun _ => DeleteOutcome.forbidden)
      [⟨1, 10⟩] [⟨1, 12⟩] ⟨1, 11⟩ (by decide) (by decide)⟩

/-- C4: when every attempted deletion succeeds, the purge resolves
Success with `deleted` equal to the number of messages authored by the
acting client and `failed = 0`; unconditionally, the messages passed to
`message.delete()` are exactly the authored ones (in stream order), and
`deleted + failed` always equals the number of deletion attempts made;
an empty stream yields Success with both counters zero. -/
theorem purge_success_stats (selfId : Nat) (del : Message → DeleteOutcome) :
    (∀ msgs : List Message,
      (∀ m ∈ msgs, m.authorId = selfId → del m = DeleteOutcome.ok) →
        (on_ready_purge selfId .ok (.ok true) del msgs).done = true ∧
        (on_ready_purge selfId .ok (.ok true) del msgs).stats.deleted
          = (attemptsOf selfId msgs).length ∧
        (on_ready_purge selfId .ok (.ok true) del msgs).stats.failed = 0) ∧
    (∀ msgs : List Message,
      (purgeHistory selfId del msgs).attempts = attemptsOf selfId msgs ∧
      (∀ m ∈ (purgeHistory selfId del msgs).attempts, m.authorId = selfId) ∧
      (purgeHistory selfId del msgs).deleted + (purgeHistory selfId del msgs).failed
        = (purgeHistory selfId del msgs).attempts.length) ∧
    on_ready_purge selfId .ok (.ok true) del []
      = { done := true, stats := initPurgeState } := by
  refine ⟨?_, ?_, ?_⟩
  · intro msgs hAllOk
    have hfail := countFailed_eq_zero selfId del msgs hAllOk
    have hsplit := count_split selfId del msgs
    refine ⟨by simp [on_ready_purge], ?_, ?_⟩
    · simp only [on_ready_purge, Bool.not_true, Bool.false_eq_true, if_false,
        purgeHistory_eq]
      omega
    · simp only [on_ready_purge, Bool.not_true, Bool.false_eq_true, if_false,
        purgeHistory_eq]
      exact hfail
  · intro msgs
    rw [purgeHistory_eq]
    refine ⟨rfl, ?_, ?_⟩
    · intro m hm
      have hm' : m ∈ attemptsOf selfId msgs := hm
      simp only [attemptsOf, List.mem_filter, beq_iff_eq] at hm'
      exact hm'.2
    · simpa using count_split selfId del msgs
  · simp [on_ready_purge, purgeHistory_eq, initPurgeState, countDeleted,
      countFailed, attemptsOf]

/-- Concrete instance of `purge_success_stats`: acting client `1`, a
stream with two authored messages and one foreign one, every deletion
succeeding. -/
theorem purge_success_stats_witness :
    (∀ m ∈ ([⟨1, 10⟩, ⟨2, 20⟩, ⟨1, 30⟩] : List Message),
      m.authorId = 1 → (fun _ : Message => DeleteOutcome.ok) m = DeleteOutcome.ok) ∧
    ((on_ready_purge 1 .ok (.ok true) (fun _ => DeleteOutcome.ok)
        [⟨1, 10⟩, ⟨2, 20⟩, ⟨1, 30⟩]).done = true ∧
     (on_ready_purge 1 .ok (.ok true) (fun _ => DeleteOutcome.ok)
        [⟨1, 10⟩, ⟨2, 20⟩, ⟨1, 30⟩]).stats.deleted
       = (attemptsOf 1 [⟨1, 10⟩, ⟨2, 20⟩, ⟨1, 30⟩]).length ∧
     (on_ready_purge 1 .ok (.ok true) (fun _ => DeleteOutcome.ok)
        [⟨1, 10⟩, ⟨2, 20⟩, ⟨1, 30⟩]).stats.failed = 0) :=
  ⟨by decide,
    (purge_success_stats 1 (fun _ => DeleteOutcome.ok)).1
      [⟨1, 10⟩, ⟨2, 20⟩, ⟨1, 30⟩] (by decide)⟩

/-- C1 counterexample: on a run whose credential is rejected, the
orchestrator never reaches `client.close()` (zero closes) and `main`
never returns an exit code — refuting "the Session is closed exactly
once before the process returns its exit code ... also when
authentication is rejected". -/
theorem session_close_auth_rejected_cex :
    (orchestrate false .success).closes = 0 ∧
    (orchestrate false .success).result = .hangs := by
  decide

/-- C1 (amended): on every run where authentication succeeds, the
Session is closed exactly once before `main` terminates, whether the
ready handler resolves the completion future with Success, with Failure,
or with a captured exception; on a run whose credential is rejected the
teardown is never reached — the Session is never closed and `main` never
terminates. -/
theorem session_closed_once (outcome : HandlerOutcome) :
    (orchestrate true outcome).closes = 1 ∧
    (orchestrate true outcome).result ≠ .hangs ∧
    (orchestrate false outcome).closes = 0 ∧
    (orchestrate false outcome).result = .hangs := by
  cases outcome <;> decide

/-- C2: the inner `run()` coroutine does map a rejected credential to
the value `3`, but `main` discards that value and blocks forever on the
completion future that only `on_ready` could resolve: the process never
terminates, so it never returns exit code 3 (a bug — the dead `return 3`
and the error message show the intended behaviour). -/
theorem auth_rejected_never_exits_3 (outcome : HandlerOutcome) :
    run false = 3 ∧
    orchestrate false outcome
      = { result := .hangs, opens := 1, closes := 0 } ∧
    (∀ flagToken prompt,
      main_model flagToken prompt false outcome
        ≠ { result := .exits 3, opens := 1, closes := 1 }) := by
  refine ⟨rfl, by cases outcome <;> decide, ?_⟩
  intro flagToken prompt
  unfold main_model
  cases h : acquireToken flagToken prompt with
  | error c =>
    show ({ result := .exits c, opens := 0, closes := 0 } : RunTrace) ≠ _
    intro hcontra
    have hopens := congrArg RunTrace.opens hcontra
    simp at hopens
  | ok t =>
    show orchestrate false outcome ≠ _
    cases outcome <;> decide

/-- C10: when the `--token` flag is absent and the secret prompt yields
the empty string, `main` returns exit code `2` with no Session ever
opened or closed; moreover any token that does reach `client.start` is
non-empty. -/
theorem empty_prompt_token_exits_2 :
    (∀ (authOk : Bool) (outcome : HandlerOutcome),
      main_model none (.entered "") authOk outcome
        = { result := .exits 2, opens := 0, closes := 0 }) ∧
    (∀ (flagToken : Option String) (prompt : PromptOutcome) (s : String),
      acquireToken flagToken prompt = .ok s → s ≠ "") := by
  constructor
  · intro authOk outcome
    rfl
  · intro flagToken prompt s h hs
    subst hs
    by_cases ht : flagToken.getD "" = ""
    · cases prompt with
      | interrupted =>
        have he : acquireToken flagToken .interrupted = .error 2 := by
          simp [acquireToken, ht]
        rw [he] at h
        exact absurd h (by simp)
      | entered s' =>
        by_cases hs' : s' = ""
        · have he : acquireToken flagToken (.entered s') = .error 2 := by
            simp [acquireToken, ht, hs']
          rw [he] at h
          exact absurd h (by simp)
        · have he : acquireToken flagToken (.entered s') = .ok s' := by
            simp [acquireToken, ht, hs']
          rw [he] at h
          exact hs' (Except.ok.inj h)
    · have he : acquireToken flagToken prompt = .ok (flagToken.getD "") := by
        simp [acquireToken, ht]
      rw [he] at h
      exact ht (Except.ok.inj h)

/-- Concrete instance of `empty_prompt_token_exits_2`: a non-empty token
accepted by the prelude is indeed non-empty. -/
theorem empty_prompt_token_exits_2_witness :
    acquireToken (some "tok") PromptOutcome.interrupted = Except.ok "tok" ∧
    ("tok" : String) ≠ "" :=
  ⟨rfl,
    empty_prompt_token_exits_2.2 (some "tok") PromptOutcome.interrupted "tok"
      rfl⟩

/- ## Helper lemmas about the orderings -/

/-- Characters with equal code points are equal. -/
theorem char_eq_of_toNat_eq {c d : Char} (h : c.toNat = d.toNat) : c = d :=
  Char.eq_of_val_eq (UInt32.ext h)

/-- `charsCmp` answers `eq` exactly on equal lists. -/
theorem charsCmp_eq_iff : ∀ a b : List Char, charsCmp a b = Ordering.eq ↔ a = b
  | [], [] => by simp [charsCmp]
  | [], _ :: _ => by simp [charsCmp]
  | _ :: _, [] => by simp [charsCmp]
  | x :: xs, y :: ys => by
    by_cases h1 : x.toNat < y.toNat
    · simp only [charsCmp, if_pos h1]
      constructor
      · intro h; exact absurd h (by decide)
      · intro h
        injection h with hx hxs
        subst hx
        exact absurd h1 (Nat.lt_irrefl _)
    · by_cases h2 : y.toNat < x.toNat
      · simp only [charsCmp, if_neg h1, if_pos h2]
        constructor
        · intro h; exact absurd h (by decide)
        · intro h
          injection h with hx hxs
          subst hx
          exact absurd h2 (Nat.lt_irrefl _)
      · have hxy : x = y :=
          char_eq_of_toNat_eq
            (Nat.le_antisymm (Nat.le_of_not_lt h2) (Nat.le_of_not_lt h1))
        subst hxy
        simp only [charsCmp, if_neg h1, if_neg h2]
        rw [charsCmp_eq_iff xs ys]
        simp

/-- `charsCmp` answers `gt` exactly when the swapped comparison answers
`lt`. -/
theorem charsCmp_gt_iff : ∀ a b : List Char,
    charsCmp a b = Ordering.gt ↔ charsCmp b a = Ordering.lt
  | [], [] => by simp [charsCmp]
  | [], _ :: _ => by simp [charsCmp]
  | _ :: _, [] => by simp [charsCmp]
  | x :: xs, y :: ys => by
    by_cases h1 : x.toNat < y.toNat
    · simp only [charsCmp, if_pos h1, if_neg (Nat.lt_asymm h1)]
      decide
    · by_cases h2 : y.toNat < x.toNat
      · simp only [charsCmp, if_neg h1, if_pos h2]
      · simp only [charsCmp, if_neg h1, if_neg h2]
        exact charsCmp_gt_iff xs ys

/-- Strict lexicographic comparison of character lists is transitive. -/
theorem charsCmp_lt_trans : ∀ a b c : List Char,
    charsCmp a b = Ordering.lt → charsCmp b c = Ordering.lt →
    charsCmp a c = Ordering.lt
  | [], [], _ => by intro h _; simp [charsCmp] at h
  | [], _ :: _, [] => by intro _ h; simp [charsCmp] at h
  | [], _ :: _, _ :: _ => by intro _ _; rfl
  | _ :: _, [], _ => by intro h _; simp [charsCmp] at h
  | _ :: _, _ :: _, [] => by intro _ h; simp [charsCmp] at h
  | x :: xs, y :: ys, z :: zs => by
    intro h1 h2
    simp only [charsCmp] at h1 h2 ⊢
    by_cases hxy : x.toNat < y.toNat
    · by_cases hyz : y.toNat < z.toNat
      · rw [if_pos (Nat.lt_trans hxy hyz)]
      · by_cases hzy : z.toNat < y.toNat
        · rw [if_neg hyz, if_pos hzy] at h2
          exact absurd h2 (by decide)
        · have hyzEq : y.toNat = z.toNat :=
            Nat.le_antisymm (Nat.le_of_not_lt hzy) (Nat.le_of_not_lt hyz)
          rw [if_pos (hyzEq ▸ hxy)]
    · by_cases hyx : y.toNat < x.toNat
      · rw [if_neg hxy, if_pos hyx] at h1
        exact absurd h1 (by decide)
      · have hxyEq : x.toNat = y.toNat :=
          Nat.le_antisymm (Nat.le_of_not_lt hyx) (Nat.le_of_not_lt hxy)
        rw [if_neg hxy, if_neg hyx] at h1
        by_cases hyz : y.toNat < z.toNat
        · rw [if_pos (hxyEq ▸ hyz)]
        · by_cases hzy : z.toNat < y.toNat
          · rw [if_neg hyz, if_pos hzy] at h2
            exact absurd h2 (by decide)
          · have hyzEq : y.toNat = z.toNat :=
              Nat.le_antisymm (Nat.le_of_not_lt hzy) (Nat.le_of_not_lt hyz)
            rw [if_neg hyz, if_neg hzy] at h2
            have hxz1 : ¬ x.toNat < z.toNat := by omega
            have hxz2 : ¬ z.toNat < x.toNat := by omega
            rw [if_neg hxz1, if_neg hxz2]
            exact charsCmp_lt_trans xs ys zs h1 h2

/-- `charsLe` spelled out. -/
theorem charsLe_iff (a b : List Char) :
    charsLe a b = true ↔ charsCmp a b ≠ Ordering.gt := by
  simp [charsLe]

/-- `charsLe` is total. -/
theorem charsLe_total (a b : List Char) :
    charsLe a b = true ∨ charsLe b a = true := by
  rw [charsLe_iff, charsLe_iff]
  cases h : charsCmp a b with
  | lt => exact Or.inl (by simp [h])
  | eq => exact Or.inl (by simp [h])
  | gt =>
    refine Or.inr ?_
    have := (charsCmp_gt_iff a b).mp h
    intro hgt
    have := (charsCmp_gt_iff b a).mp hgt
    rw [this] at h
    exact absurd h (by decide)

/-- `charsLe` is transitive. -/
theorem charsLe_trans (a b c : List Char) (h1 : charsLe a b = true)
    (h2 : charsLe b c = true) : charsLe a c = true := by
  rw [charsLe_iff] at h1 h2 ⊢
  cases hab : charsCmp a b with
  | gt => exact absurd hab h1
  | eq =>
    have : a = b := (charsCmp_eq_iff a b).mp hab
    subst this
    exact h2
  | lt =>
    cases hbc : charsCmp b c with
    | gt => exact absurd hbc h2
    | eq =>
      have : b = c := (charsCmp_eq_iff b c).mp hbc
      subst this
      rw [hab]
      decide
    | lt =>
      rw [charsCmp_lt_trans a b c hab hbc]
      decide

/-- `charsLe` is reflexive. -/
theorem charsLe_refl (a : List Char) : charsLe a a = true := by
  rw [charsLe_iff, (charsCmp_eq_iff a a).mpr rfl]
  decide

/-- `pairLe` is reflexive. -/
theorem pairLe_refl (a : List Char × List Char) : pairLe a a = true := by
  unfold pairLe
  rw [(charsCmp_eq_iff a.1 a.1).mpr rfl]
  exact charsLe_refl a.2

/-- `pairLe` is total. -/
theorem pairLe_total (a b : List Char × List Char) :
    pairLe a b = true ∨ pairLe b a = true := by
  unfold pairLe
  cases hab : charsCmp a.1 b.1 with
  | lt => exact Or.inl rfl
  | gt =>
    have hba := (charsCmp_gt_iff a.1 b.1).mp hab
    rw [hba]
    exact Or.inr rfl
  | eq =>
    have h1 : a.1 = b.1 := (charsCmp_eq_iff a.1 b.1).mp hab
    rw [h1, (charsCmp_eq_iff b.1 b.1).mpr rfl]
    exact charsLe_total a.2 b.2

/-- `pairLe` is transitive. -/
theorem pairLe_trans (a b c : List Char × List Char)
    (h1 : pairLe a b = true) (h2 : pairLe b c = true) :
    pairLe a c = true := by
  unfold pairLe at h1 h2 ⊢
  cases hab : charsCmp a.1 b.1 with
  | gt => rw [hab] at h1; simp at h1
  | eq =>
    have ha : a.1 = b.1 := (charsCmp_eq_iff a.1 b.1).mp hab
    rw [hab] at h1
    cases hbc : charsCmp b.1 c.1 with
    | gt => rw [hbc] at h2; simp at h2
    | lt =>
      rw [ha, hbc]
    | eq =>
      rw [hbc] at h2
      rw [ha, hbc]
      exact charsLe_trans a.2 b.2 c.2 h1 h2
  | lt =>
    cases hbc : charsCmp b.1 c.1 with
    | gt => rw [hbc] at h2; simp at h2
    | lt =>
      rw [charsCmp_lt_trans a.1 b.1 c.1 hab hbc]
    | eq =>
      have hb : b.1 = c.1 := (charsCmp_eq_iff b.1 c.1).mp hbc
      rw [← hb, hab]

instance : IsTotal InviteRec recLeProp :=
  ⟨fun a b => pairLe_total (recKey a) (recKey b)⟩

instance : IsTrans InviteRec recLeProp :=
  ⟨fun a b c h1 h2 => pairLe_trans (recKey a) (recKey b) (recKey c) h1 h2⟩

/-- `chanLe` spelled out. -/
theorem chanLe_iff (a b : Channel) :
    chanLe a b = true ↔
      (a.position < b.position ∨ (a.position = b.position ∧ a.id ≤ b.id)) := by
  simp [chanLe]

/-- `chanLe` is reflexive. -/
theorem chanLe_refl (a : Channel) : chanLe a a = true := by
  rw [chanLe_iff]
  omega

/-- `chanLe` is total. -/
theorem chanLe_total (a b : Channel) :
    chanLe a b = true ∨ chanLe b a = true := by
  rw [chanLe_iff, chanLe_iff]
  omega

/-- `chanLe` is transitive. -/
theorem chanLe_trans (a b c : Channel) (h1 : chanLe a b = true)
    (h2 : chanLe b c = true) : chanLe a c = true := by
  rw [chanLe_iff] at h1 h2 ⊢
  omega

instance : IsTotal Channel chanLeProp :=
  ⟨fun a b => chanLe_total a b⟩

instance : IsTrans Channel chanLeProp :=
  ⟨fun a b c h1 h2 => chanLe_trans a b c h1 h2⟩

/-- The head of the sorted channel list is one of the channels and is
minimal among them for the `(position, id)` key. -/
theorem insertionSort_head_min (l : List Channel) (c : Channel)
    (rest : List Channel)
    (h : List.insertionSort chanLeProp l = c :: rest) :
    c ∈ l ∧ ∀ x ∈ l, chanLeProp c x := by
  have hperm := List.perm_insertionSort chanLeProp l
  have hsorted := List.sorted_insertionSort chanLeProp l
  rw [h] at hperm hsorted
  have hmem : c ∈ l := hperm.mem_iff.mp (List.mem_cons_self c rest)
  refine ⟨hmem, ?_⟩
  intro x hx
  have hx' : x ∈ c :: rest := hperm.mem_iff.mpr hx
  rcases List.mem_cons.mp hx' with hxc | hxr
  · subst hxc
    exact chanLe_refl x
  · exact (List.sorted_cons.mp hsorted).1 x hxr

/-- One collection-loop step, rephrased by the keep condition. -/
theorem collectStep_eq (b : Bool) (acc : List InviteRec) (inv : Invite) :
    collectStep b acc inv =
      if b || !(invite_record inv).revoked then acc ++ [invite_record inv]
      else acc := by
  cases b <;> by_cases hr : (invite_record inv).revoked <;>
    simp [collectStep, hr]

/-- The collection loop keeps exactly the records passing the
revocation filter, in stream order. -/
theorem collectRecords_eq (b : Bool) (invs : List Invite) :
    collectRecords b invs
      = (invs.map invite_record).filter (fun r => b || !r.revoked) := by
  have go : ∀ (invs : List Invite) (acc : List InviteRec),
      invs.foldl (collectStep b) acc
        = acc ++ (invs.map invite_record).filter (fun r => b || !r.revoked) := by
    intro invs
    induction invs with
    | nil => intro acc; simp
    | cons inv rest ih =>
      intro acc
      rw [List.foldl_cons, ih, collectStep_eq, List.map_cons, List.filter_cons]
      by_cases hk : (b || !(invite_record inv).revoked) = true
      · rw [if_pos hk, if_pos hk]
        simp
      · rw [if_neg hk, if_neg hk]
  rw [collectRecords, go]
  simp

/- ## Helper lemmas about the creation block -/

/-- `channel.create_invite` is awaited exactly when `should_create`
holds and a candidate channel resolved. -/
theorem createStep_called (args : InviteArgs) (g : Guild)
    (invites : List Invite) (createRes : CreateInviteOutcome) :
    (createStep args g invites createRes).called
      = (args.create && (!args.only_if_none || invites.length == 0)
          && (choose_channel_for_invite g args.channel_id).isSome) := by
  simp only [createStep]
  by_cases h : (args.create && (!args.only_if_none || invites.length == 0)) = true
  · rw [if_pos h]
    cases hch : choose_channel_for_invite g args.channel_id with
    | none => simp [h, hch]
    | some ch => cases createRes <;> simp [h, hch]
  · rw [if_neg h]
    simp only [Bool.not_eq_true] at h
    simp [h]

/-- When `should_create` fails, the creation block does nothing. -/
theorem createStep_skip (args : InviteArgs) (g : Guild)
    (invites : List Invite) (createRes : CreateInviteOutcome)
    (h : (args.create && (!args.only_if_none || invites.length == 0)) = false) :
    createStep args g invites createRes
      = { created_rec := none, invites := invites, called := false, diags := 0 } := by
  simp only [createStep]
  rw [if_neg (by simp [h])]

/-- A `Forbidden` answer from `create_invite` records nothing and leaves
the invite list as fetched, whatever the flags and channel situation. -/
theorem createStep_forbidden (args : InviteArgs) (g : Guild)
    (invites : List Invite) :
    (createStep args g invites .forbidden).created_rec = none ∧
    (createStep args g invites .forbidden).invites = invites := by
  simp only [createStep]
  by_cases h : (args.create && (!args.only_if_none || invites.length == 0)) = true
  · rw [if_pos h]
    cases hch : choose_channel_for_invite g args.channel_id <;> simp
  · rw [if_neg h]
    exact ⟨rfl, rfl⟩

/-- `chooseFallback` with no system channel, unfolded. -/
theorem chooseFallback_no_system (g : Guild) (hsys : g.system_channel = none) :
    chooseFallback g
      = match List.insertionSort chanLeProp (text_channels g) with
        | ch :: _ => some ch
        | [] => g.channels.find? (fun c => c.hasCreateInvite) := by
  unfold chooseFallback
  rw [hsys]

/- ## Concrete sample data -/

/-- A minimal invite used by the concrete instances. -/
def sampleInvite : Invite :=
  { code := "abc", url := "u", channelId := none, channelName := none
    inviterId := none, inviterName := none, uses := 0, maxUses := 0
    temporary := false, revoked := false, max_age := none, createdAt := none }

/-- An invite living in a channel named `zeta`. -/
def invZeta : Invite :=
  { sampleInvite with code := "z1", channelName := some "zeta", channelId := some 1 }

/-- An invite living in a channel named `alpha`. -/
def invAlpha : Invite :=
  { sampleInvite with code := "a1", channelName := some "alpha", channelId := some 2 }

/-- A guild with no channels at all. -/
def emptyGuild : Guild :=
  { channels := [], system_channel := none, fetchChannel := fun _ => none }

/-- `--create` with no other flags. -/
def argsCreate : InviteArgs :=
  { create := true, only_if_none := false, include_revoked := false
    channel_id := none }

/-- `--create --only-if-none`. -/
def argsOnlyIfNone : InviteArgs :=
  { create := true, only_if_none := true, include_revoked := false
    channel_id := none }

/-- List-only flags. -/
def argsPlain : InviteArgs :=
  { create := false, only_if_none := false, include_revoked := false
    channel_id := none }

/-- A system channel. -/
def sysChannel : Channel :=
  { id := 5, name := "sys", position := 0, isText := true, hasCreateInvite := true }

/-- A guild whose system channel is set and whose cache cannot resolve
the explicit ID `42` (nor can the remote fetch). -/
def guildWithSys : Guild :=
  { channels := [sysChannel], system_channel := some sysChannel
    fetchChannel := fun _ => none }

/-- A text channel at position 3. -/
def chPos3 : Channel :=
  { id := 1, name := "three", position := 3, isText := true, hasCreateInvite := true }

/-- A text channel at position 1. -/
def chPos1 : Channel :=
  { id := 2, name := "one", position := 1, isText := true, hasCreateInvite := true }

/-- A guild with no system channel and two text channels at positions
`[3, 1]`. -/
def gTwoText : Guild :=
  { channels := [chPos3, chPos1], system_channel := none
    fetchChannel := fun _ => none }

/-- C5 counterexample: with `--create` set, `--only-if-none` unset and
an empty fetched invite list — so the claimed right-hand side of the
"if and only if" holds — no creation call is issued when no candidate
channel resolves (here: a guild with no channels at all). -/
theorem invite_create_iff_cex :
    (on_ready_invites argsCreate emptyGuild (.ok []) (.ok sampleInvite)).createCalled
      = false ∧
    (argsCreate.create
      && (!argsCreate.only_if_none || (fetchedInvites (.ok [])).length == 0))
      = true := by
  exact ⟨rfl, rfl⟩

/-- C5 (amended): a creation call is issued iff `options.create` is set,
(`options.only_if_none` is unset or the fetched invite list is empty),
and a candidate channel resolves; the emptiness test reads the list as
fetched, before any creation side effect; in particular, with
`--only-if-none` and a non-empty fetched list, nothing is created. -/
theorem invite_create_condition (args : InviteArgs) (g : Guild)
    (fetchRes : FetchInvitesOutcome) (createRes : CreateInviteOutcome) :
    ((on_ready_invites args g fetchRes createRes).createCalled
      = (args.create
          && (!args.only_if_none || (fetchedInvites fetchRes).length == 0)
          && (choose_channel_for_invite g args.channel_id).isSome)) ∧
    (args.only_if_none = true → fetchedInvites fetchRes ≠ [] →
      (on_ready_invites args g fetchRes createRes).createCalled = false ∧
      (on_ready_invites args g fetchRes createRes).created_invite = none) := by
  have hcalled : (on_ready_invites args g fetchRes createRes).createCalled
      = (createStep args g (fetchedInvites fetchRes) createRes).called := rfl
  have hcreated : (on_ready_invites args g fetchRes createRes).created_invite
      = (createStep args g (fetchedInvites fetchRes) createRes).created_rec := rfl
  constructor
  · rw [hcalled, createStep_called]
  · intro honly hne
    have hlen : ((fetchedInvites fetchRes).length == 0) = false := by
      cases hfe : fetchedInvites fetchRes with
      | nil => exact absurd hfe hne
      | cons a l => simp
    have hcond : (args.create
        && (!args.only_if_none || (fetchedInvites fetchRes).length == 0)) = false := by
      simp [honly, hlen]
    rw [hcalled, hcreated, createStep_skip args g _ createRes hcond]
    exact ⟨rfl, rfl⟩

/-- Concrete instance of `invite_create_condition`: `--only-if-none`
with one pre-existing invite — no call, nothing created. -/
theorem invite_create_condition_witness :
    argsOnlyIfNone.only_if_none = true ∧
    fetchedInvites (.ok [sampleInvite]) ≠ [] ∧
    ((on_ready_invites argsOnlyIfNone guildWithSys (.ok [sampleInvite])
        (.ok sampleInvite)).createCalled = false ∧
     (on_ready_invites argsOnlyIfNone guildWithSys (.ok [sampleInvite])
        (.ok sampleInvite)).created_invite = none) :=
  ⟨rfl, by decide,
    (invite_create_condition argsOnlyIfNone guildWithSys (.ok [sampleInvite])
      (.ok sampleInvite)).2 rfl (by decide)⟩

/-- C6 counterexample: an explicit channel ID that resolves neither from
the cache nor from the remote fetch yields no channel at all, even
though the guild's system channel is set — the code does not fall back
past a failed explicit ID, while the claimed fallback order (first match
wins) would select the system channel. -/
theorem choose_channel_no_fallback_cex :
    choose_channel_for_invite guildWithSys (some 42) = none ∧
    guildWithSys.system_channel = some sysChannel ∧
    chooseFallback guildWithSys = some sysChannel := by
  exact ⟨rfl, rfl, rfl⟩

/-- C6 (amended): a provided non-zero channel ID short-circuits —
it resolves from the cache, else to the remote fetch's answer, with no
further fallback; only with no explicit ID (absent or `0`) does the
fallback run: the system channel if set, else the text channel minimal
for `(position, id)`, else the first channel with invite-creation
capability; between text channels at positions `[3, 1]` the engine
selects position 1. -/
theorem choose_channel_spec :
    (∀ (g : Guild) (cid : Nat) (c : Channel), cid ≠ 0 →
        g.channels.find? (fun ch => ch.id == cid) = some c →
        choose_channel_for_invite g (some cid) = some c) ∧
    (∀ (g : Guild) (cid : Nat), cid ≠ 0 →
        g.channels.find? (fun ch => ch.id == cid) = none →
        choose_channel_for_invite g (some cid) = g.fetchChannel cid) ∧
    (∀ (g : Guild) (c : Channel), g.system_channel = some c →
        choose_channel_for_invite g none = some c) ∧
    (∀ (g : Guild) (c : Channel), g.system_channel = none →
        text_channels g ≠ [] →
        choose_channel_for_invite g none = some c →
        c ∈ text_channels g ∧ ∀ x ∈ text_channels g, chanLeProp c x) ∧
    (∀ g : Guild, g.system_channel = none → text_channels g = [] →
        choose_channel_for_invite g none
          = g.channels.find? (fun ch => ch.hasCreateInvite)) ∧
    (choose_channel_for_invite gTwoText none = some chPos1 ∧
      gTwoText.system_channel = none ∧
      chPos3.position = 3 ∧ chPos1.position = 1) := by
  refine ⟨?_, ?_, ?_, ?_, ?_, ?_⟩
  · intro g cid c hcid hfind
    simp only [choose_channel_for_invite]
    rw [if_pos hcid, hfind]
  · intro g cid hcid hfind
    simp only [choose_channel_for_invite]
    rw [if_pos hcid, hfind]
  · intro g c hsys
    simp only [choose_channel_for_invite]
    unfold chooseFallback
    rw [hsys]
  · intro g c hsys htext hchoose
    have hfall : chooseFallback g = some c := hchoose
    rw [chooseFallback_no_system g hsys] at hfall
    cases hs : List.insertionSort chanLeProp (text_channels g) with
    | nil =>
      have hperm := List.perm_insertionSort chanLeProp (text_channels g)
      rw [hs] at hperm
      exact absurd hperm.symm.eq_nil htext
    | cons ch rest =>
      rw [hs] at hfall
      have hcc : ch = c := Option.some.inj hfall
      subst hcc
      exact insertionSort_head_min (text_channels g) ch rest hs
  · intro g hsys htext
    show chooseFallback g = _
    rw [chooseFallback_no_system g hsys, htext]
    rfl
  · exact ⟨rfl, rfl, rfl, rfl⟩

/-- Concrete instance of `choose_channel_spec`: in the two-text-channel
guild the selected channel is a text channel minimal for
`(position, id)`. -/
theorem choose_channel_spec_witness :
    gTwoText.system_channel = none ∧
    text_channels gTwoText ≠ [] ∧
    choose_channel_for_invite gTwoText none = some chPos1 ∧
    (chPos1 ∈ text_channels gTwoText ∧
      ∀ x ∈ text_channels gTwoText, chanLeProp chPos1 x) :=
  ⟨rfl, by decide, rfl,
    choose_channel_spec.2.2.2.1 gTwoText chPos1 rfl (by decide) rfl⟩

/-- C7: the handler's final invite list equals the post-mutation invite
set's records, filtered (revoked dropped unless `--include-revoked`) and
stably sorted by the `(channel name, code)` key; the result is sorted
for that key; and for invites in channels named `zeta` and `alpha`, the
`alpha` one is listed first. -/
theorem invites_filtered_sorted (args : InviteArgs) (g : Guild)
    (fetchRes : FetchInvitesOutcome) (createRes : CreateInviteOutcome) :
    ((on_ready_invites args g fetchRes createRes).invites
      = sortInvites
          (((createStep args g (fetchedInvites fetchRes) createRes).invites.map
              invite_record).filter
            (fun r => args.include_revoked || !r.revoked))) ∧
    List.Sorted recLeProp (on_ready_invites args g fetchRes createRes).invites ∧
    ((on_ready_invites argsPlain emptyGuild (.ok [invZeta, invAlpha])
        (.ok sampleInvite)).invites
      = [invite_record invAlpha, invite_record invZeta]) := by
  refine ⟨?_, ?_, ?_⟩
  · show sortInvites (collectRecords args.include_revoked
        (createStep args g (fetchedInvites fetchRes) createRes).invites) = _
    rw [collectRecords_eq]
  · show List.Sorted recLeProp (sortInvites (collectRecords args.include_revoked
        (createStep args g (fetchedInvites fetchRes) createRes).invites))
    exact List.sorted_insertionSort recLeProp _
  · decide

/-- C8: once the guild has resolved, the handler always resolves the
completion future with Success; a `Forbidden` answer when fetching
invites is read as zero invites; and a `Forbidden` answer from
`create_invite` leaves `created_invite` empty and the final list exactly
the records of the invites already fetched. -/
theorem invites_forbidden_contained :
    (∀ (args : InviteArgs) (g : Guild) (fetchRes : FetchInvitesOutcome)
        (createRes : CreateInviteOutcome),
      (on_ready_invites args g fetchRes createRes).done = true) ∧
    fetchedInvites .forbidden = [] ∧
    (∀ (args : InviteArgs) (g : Guild) (fetchRes : FetchInvitesOutcome),
      (on_ready_invites args g fetchRes .forbidden).created_invite = none ∧
      (on_ready_invites args g fetchRes .forbidden).invites
        = sortInvites (collectRecords args.include_revoked
            (fetchedInvites fetchRes))) := by
  refine ⟨fun _ _ _ _ => rfl, rfl, ?_⟩
  intro args g fetchRes
  have h := createStep_forbidden args g (fetchedInvites fetchRes)
  constructor
  · show (createStep args g (fetchedInvites fetchRes) .forbidden).created_rec = none
    exact h.1
  · show sortInvites (collectRecords args.include_revoked
        (createStep args g (fetchedInvites fetchRes) .forbidden).invites) = _
    rw [h.2]

/-- C9: an invite record's derived expiry is the creation time shifted
by `max_age` seconds when `max_age` is positive (and is absent when the
creation time is absent), and is absent when `max_age` is zero or
absent. -/
theorem invite_record_expiry (inv : Invite) :
    (∀ n : Nat, inv.max_age = some n → 0 < n →
      (invite_record inv).expires_at = inv.createdAt.map (fun t => t + n)) ∧
    (inv.max_age = none ∨ inv.max_age = some 0 →
      (invite_record inv).expires_at = none) := by
  constructor
  · intro n hma hpos
    show (match inv.max_age, inv.createdAt with
      | some n, some t => if 0 < n then some (t + n) else none
      | _, _ => none) = _
    rw [hma]
    cases hc : inv.createdAt with
    | none => simp
    | some t => simp [hpos]
  · intro h
    show (match inv.max_age, inv.createdAt with
      | some n, some t => if 0 < n then some (t + n) else none
      | _, _ => none) = none
    rcases h with h | h
    · rw [h]
    · rw [h]
      cases inv.createdAt with
      | none => rfl
      | some t => simp

/-- Concrete instance of `invite_record_expiry`: `max_age = 60`,
created at time `100`, expiry `160`. -/
theorem invite_record_expiry_witness :
    ({ sampleInvite with max_age := some 60, createdAt := some 100 } : Invite).max_age
      = some 60 ∧
    0 < 60 ∧
    (invite_record { sampleInvite with max_age := some 60, createdAt := some 100 }).expires_at
      = ({ sampleInvite with max_age := some 60, createdAt := some 100 } : Invite).createdAt.map
          (fun t => t + 60) :=
  ⟨rfl, by decide,
    (invite_record_expiry
        { sampleInvite with max_age := some 60, createdAt := some 100 }).1
      60 rfl (by decide)⟩
